import Mathlib

set_option maxRecDepth 100000

/-!
Verification development for the git-file-email agent
(`src/git_file_email_agent.py`).

The Python program is embedded shallowly: its string manipulation is
modelled over `List Char` with executable definitions that mirror the
semantics of the Python primitives it uses (`str.split`, `str.strip`,
`in`, slicing), its subprocess and SMTP interactions are modelled by
small inductive outcome types, and a Python exception that escapes a
function is modelled by `Option` (with `none` for a raised exception).
-/

/-- Python `str.isspace` on the ASCII whitespace characters that
`str.strip()` removes. -/
def pyIsSpace (c : Char) : Bool :=
  c == ' ' || c == '\t' || c == '\n' || c == '\r' || c == '\x0b' || c == '\x0c'

/-- Drop leading whitespace characters from a character list. -/
def dropWhileSpace : List Char → List Char
  | [] => []
  | c :: cs => if pyIsSpace c then dropWhileSpace cs else c :: cs

/-- Python `s.strip()`: remove leading and trailing whitespace. -/
def pyStrip (s : String) : String :=
  ⟨dropWhileSpace ((dropWhileSpace s.data.reverse).reverse)⟩

/-- Split a character list on a single separator character, following the
semantics of Python `s.split(sep)` for a one-character `sep`: the result
always has one more element than the number of separator occurrences, and
empty fields are kept. -/
def splitOnChar (c : Char) : List Char → List (List Char)
  | [] => [[]]
  | x :: xs =>
    match splitOnChar c xs with
    | [] => [[]]
    | g :: gs => if x == c then [] :: g :: gs else (x :: g) :: gs

/-- Python `s.split(sep)` for a one-character separator. -/
def pySplit (s : String) (c : Char) : List String :=
  (splitOnChar c s.data).map (fun l => ⟨l⟩)

/-- Python `c in s` for a one-character needle. -/
def pyContains (s : String) (c : Char) : Bool :=
  s.data.any (fun x => x == c)

/-- Python slice `s[:10]` (by code points, as in Python). -/
def pyTakeTen (s : String) : String :=
  ⟨s.data.take 10⟩

/-- One collected row: the dict
`{'filename': ..., 'date': ..., 'branch': ...}` appended to
`self.changed_files` (line 86 of the source). -/
structure ChangedFileEntry where
  filename : String
  date : String
  branch : String
deriving Repr, DecidableEq

/-- The transient `current_commit_info` dict
`{'hash': ..., 'date': ..., 'author': ...}` (line 80 of the source). -/
structure CommitInfo where
  hash : String
  author : String
  date : String
deriving Repr, DecidableEq

/-- Python `self.branch_name or 'Unknown'` (line 89): `None` and the empty
string are falsy, any other string is returned unchanged. -/
def branchOrUnknown : Option String → String
  | none => "Unknown"
  | some s => if s = "" then "Unknown" else s

/-- Parsing of a commit header line (lines 76-84 of the source):
`parts = line.split('|')`, then `parts[0]`, `parts[1]`, `parts[2][:10]`.
`none` models the `IndexError` raised when fewer than three fields exist. -/
def parseHeader (line : String) : Option CommitInfo :=
  match pySplit line '|' with
  | p0 :: p1 :: p2 :: _ => some ⟨p0, p1, pyTakeTen p2⟩
  | _ => none

/-- One iteration of the `for line in lines` loop (lines 74-90 of the
source). The state is `(self.changed_files, current_commit_info)`; `none`
models an uncaught `IndexError` from the header parse. -/
def collectStep (branch : Option String) (st : List ChangedFileEntry × Option CommitInfo)
    (line : String) : Option (List ChangedFileEntry × Option CommitInfo) :=
  if pyContains line '|' then
    (parseHeader line).map (fun ci => (st.1, some ci))
  else if pyStrip line = "" then
    some st
  else
    match st.2 with
    | some ci => some (st.1 ++ [⟨pyStrip line, ci.date, branchOrUnknown branch⟩], st.2)
    | none => some st

/-- The whole `for line in lines` loop, threading the loop state. -/
def collectLoop (branch : Option String) (st : List ChangedFileEntry × Option CommitInfo) :
    List String → Option (List ChangedFileEntry × Option CommitInfo)
  | [] => some st
  | l :: ls =>
    match collectStep branch st l with
    | none => none
    | some st1 => collectLoop branch st1 ls

/-- The loop started from the state the source sets up on lines 71-72:
`self.changed_files = []`, `current_commit_info = None`. -/
def collectLines (branch : Option String) (lines : List String) :
    Option (List ChangedFileEntry × Option CommitInfo) :=
  collectLoop branch ([], none) lines

/-- Outcome of the `subprocess.run(['git', 'log', ...])` call: captured
stdout, or a `CalledProcessError` carrying its printed detail. -/
inductive LogQueryResult where
  | ok (stdout : String)
  | calledProcessError (detail : String)
deriving Repr, DecidableEq

/-- What `get_files_changed_today` produces: the entry list it returns,
whether the `except subprocess.CalledProcessError` handler ran, and the
console message it printed (if any). -/
structure CollectOutcome where
  entries : List ChangedFileEntry
  errored : Bool
  message : Option String
deriving Repr, DecidableEq

/-- `get_files_changed_today` (lines 46-96 of the source), as a function of
the branch name held in `self.branch_name` and of the log query outcome.
The outer `none` models an uncaught `IndexError` escaping the function. -/
def get_files_changed_today (branch : Option String) (log : LogQueryResult) :
    Option CollectOutcome :=
  match log with
  | .calledProcessError d =>
    some ⟨[], true, some ("Error getting changed files: " ++ d)⟩
  | .ok out =>
    if pyStrip out = "" then
      some ⟨[], false, some "No commits found for today"⟩
    else
      (collectLines branch (pySplit (pyStrip out) '\n')).map (fun r => ⟨r.1, false, none⟩)

/-- Outcome of the `subprocess.run(['git', 'rev-parse', ...])` call.
`osError` covers exceptions such as `FileNotFoundError` (git binary not
found), which are not `CalledProcessError` and are therefore not caught by
the handler on line 42 of the source. -/
inductive BranchQueryResult where
  | ok (stdout : String)
  | calledProcessError (detail : String)
  | osError
deriving Repr, DecidableEq

/-- `get_current_branch` (lines 31-44 of the source). The outer `none`
models an exception escaping the function (only `CalledProcessError` is
caught); `some none` is the `return None` of the handler. -/
def get_current_branch : BranchQueryResult → Option (Option String)
  | .ok out => some (some (pyStrip out))
  | .calledProcessError _ => some none
  | .osError => none

/-- Python truthiness of `self.branch_name`: `None` and `''` are falsy. -/
def pyTruthy : Option String → Bool
  | none => false
  | some s => s != ""

/-- Abstract behaviour of the SMTP session in `send_email`:
login succeeds and the message is accepted, login raises
`SMTPAuthenticationError`, or some other exception is raised during the
session (carrying its printed detail). -/
inductive SmtpBehavior where
  | ok
  | authError
  | otherError (detail : String)
deriving Repr, DecidableEq

/-- Which of the four exit paths of `send_email` was taken. -/
inductive SendStatus where
  | skippedEmpty
  | sent
  | authFailed
  | otherFailed (detail : String)
deriving Repr, DecidableEq

/-- Result of `send_email`: the boolean it returns, whether
`smtplib.SMTP_SSL` was ever constructed (line 180 of the source), and the
exit path taken. -/
structure SendResult where
  success : Bool
  smtpOpened : Bool
  status : SendStatus
deriving Repr, DecidableEq

/-- `send_email` (lines 159-195 of the source). The guard on line 161
returns `False` before any SMTP object is created when the entry list is
empty; otherwise the outcome is determined by the SMTP session behaviour.
Every exception raised in the `try` block is caught, so the function
always returns a value. -/
def send_email (files : List ChangedFileEntry) (smtp : SmtpBehavior) : SendResult :=
  if files.isEmpty then
    ⟨false, false, .skippedEmpty⟩
  else
    match smtp with
    | .ok => ⟨true, true, .sent⟩
    | .authError => ⟨false, true, .authFailed⟩
    | .otherError d => ⟨false, true, .otherFailed d⟩

/-- The first console line `send_email` prints on each exit path
(lines 162, 185, 189, 194 of the source). -/
def sendMessage (recipient : String) : SendStatus → String
  | .skippedEmpty => "No files changed today. Email not sent."
  | .sent => "✓ Email sent successfully to " ++ recipient
  | .authFailed => "✗ Error: Gmail authentication failed."
  | .otherFailed d => "✗ Error sending email: " ++ d

/-- The literal the Python code assigns to `html` on lines 103-140 of the
source (document head, style block, report heading, table opening and
header row). -/
def htmlDocHead : String :=
  "\n        <html>\n        <head>\n            <style>\n                table \x7b\n                    border-collapse: collapse;\n                    width: 100%;\n                    margin: 20px 0;\n                    font-family: Arial, sans-serif;\n                \x7d\n                th \x7b\n                    background-color: #4CAF50;\n                    color: white;\n                    padding: 12px;\n                    text-align: left;\n                    border: 1px solid #ddd;\n                \x7d\n                td \x7b\n                    padding: 10px;\n                    border: 1px solid #ddd;\n                \x7d\n                tr:nth-child(even) \x7b\n                    background-color: #f2f2f2;\n                \x7d\n                tr:hover \x7b\n                    background-color: #ddd;\n                \x7d\n            </style>\n        </head>\n        <body>\n            <h2>Git Files Changed Today Report</h2>\n            <table>\n                <tr>\n                    <th>Date</th>\n                    <th>Filename</th>\n                    <th>Branch</th>\n                </tr>\n        "

/-- The HTML emitted for one entry by the loop on lines 142-149 of the
source (the body of the f-string, with the three fields interpolated). -/
def rowHtml (e : ChangedFileEntry) : String :=
  "\n                <tr>\n                    <td>" ++ e.date ++
  "</td>\n                    <td>" ++ e.filename ++
  "</td>\n                    <td>" ++ e.branch ++
  "</td>\n                </tr>\n            "

/-- Literal before the generation timestamp in the closing fragment
(lines 151-156 of the source). -/
def htmlFootPre : String :=
  "\n            </table>\n            <p><small>Report generated on "

/-- Literal after the generation timestamp in the closing fragment. -/
def htmlFootSuf : String :=
  "</small></p>\n        </body>\n        </html>\n        "

/-- `create_html_table` (lines 98-157 of the source), as a function of the
entry list and of the `datetime.now().strftime(...)` text. -/
def create_html_table (files : List ChangedFileEntry) (now : String) : String :=
  if files.isEmpty then
    "<p>No files changed today.</p>"
  else
    (files.foldl (fun h f => h ++ rowHtml f) htmlDocHead) ++ (htmlFootPre ++ now ++ htmlFootSuf)

/-- Concatenation of a list of strings, in order. -/
def stringConcat : List String → String
  | [] => ""
  | s :: ss => s ++ stringConcat ss

/-- Whether `p` is an initial segment of `l`. -/
def startsWithChars : List Char → List Char → Bool
  | [], _ => true
  | _ :: _, [] => false
  | p :: ps, c :: cs => p == c && startsWithChars ps cs

/-- Number of positions of `l` at which the pattern `p` occurs. -/
def countSubstr (p : List Char) : List Char → Nat
  | [] => 0
  | c :: cs => (if startsWithChars p (c :: cs) then 1 else 0) + countSubstr p cs

/-- The outcomes of the external interactions of one run of the agent. -/
structure Env where
  branchResult : BranchQueryResult
  logResult : LogQueryResult
  smtp : SmtpBehavior
deriving Repr, DecidableEq

/-- Observable trace of `run` (lines 197-225 of the source): the resolved
`self.branch_name`, whether `get_files_changed_today` was reached, the
collected entries and the collector console message, the `send_email`
result when it was reached, and the boolean `run` returns. -/
structure RunTrace where
  branch : Option String
  collectorRan : Bool
  entries : List ChangedFileEntry
  collectMessage : Option String
  sendResult : Option SendResult
  success : Bool
deriving Repr, DecidableEq

/-- `run` (lines 197-225 of the source). `none` models an uncaught
exception escaping `run`: an `osError` in branch resolution, or an
`IndexError` in the collector. `if not self.get_current_branch()` on
line 205 uses Python truthiness, so both `None` and an empty branch name
take the early-return path, before the collector. -/
def run (env : Env) : Option RunTrace :=
  match get_current_branch env.branchResult with
  | none => none
  | some b =>
    if pyTruthy b = false then
      some ⟨b, false, [], none, none, false⟩
    else
      match get_files_changed_today b env.logResult with
      | none => none
      | some co =>
        some ⟨b, true, co.entries, co.message, some (send_email co.entries env.smtp),
          (send_email co.entries env.smtp).success⟩

/-- `main` (lines 228-239 of the source): `sys.exit(0 if success else 1)`.
`none` models an uncaught exception propagating out of `run`. -/
def main_exit_code (env : Env) : Option Nat :=
  (run env).map (fun t => if t.success then 0 else 1)

/-- The process exit status: the `sys.exit` argument, or 1 when an
uncaught exception terminates the interpreter (CPython exits with
status 1 on an unhandled exception). -/
def process_exit_code (env : Env) : Nat :=
  (main_exit_code env).getD 1

/-- The argument list of the log query (lines 52-60 of the source), as a
function of `date.today().isoformat()` (note that `f'--until={date.today()}'`
interpolates the same `YYYY-MM-DD` text, since `str(date)` is its ISO
form). -/
def gitLogArgs (today : String) : List String :=
  ["git", "log", "--all", "--since=" ++ today, "--until=" ++ today,
   "--name-only", "--pretty=format:%h|%an|%ai|%s"]

/-- An instant of local time: a calendar day index and the minute of that
day. -/
structure Instant where
  day : Nat
  minute : Nat
deriving Repr, DecidableEq

/-- Models the external `git` binary parsing of a bare `YYYY-MM-DD` value
given to `--since`/`--until`: fields that the string does not specify (the
time of day) default to the corresponding fields of the current time, so a
bare date denotes that calendar day at the current time of day. (Behaviour
confirmed against git 2.39.2: with both bounds set to the current date, a
commit made earlier the same day is not listed.) -/
def gitApproxidate (d : Nat) (now : Instant) : Instant :=
  ⟨d, now.minute⟩

/-- Ordering of instants. -/
def instantLe (a b : Instant) : Bool :=
  Nat.blt a.day b.day || (Nat.beq a.day b.day && Nat.ble a.minute b.minute)

/-- Whether a commit timestamp satisfies the bounds the code actually
passes: `--since=<today>` and `--until=<today>` with `<today>` a bare date,
under the git interpretation `gitApproxidate`. -/
def commitInGitQuery (today : Nat) (now c : Instant) : Bool :=
  instantLe (gitApproxidate today now) c && instantLe c (gitApproxidate today now)

/-- Whether a commit timestamp lies in the range the specification claims:
from today 00:00 (since) through the present moment (until). -/
def commitInSpecRange (today : Nat) (now c : Instant) : Bool :=
  instantLe ⟨today, 0⟩ c && instantLe c now

theorem string_data_append (s t : String) : (s ++ t).data = s.data ++ t.data := by
  cases s; cases t; rfl

theorem string_eq_of_data (a b : String) (h : a.data = b.data) : a = b := by
  cases a; cases b; exact congrArg String.mk h

theorem string_append_assoc (a b c : String) : a ++ b ++ c = a ++ (b ++ c) := by
  apply string_eq_of_data
  simp [string_data_append]

theorem foldl_rows (files : List ChangedFileEntry) : ∀ init : String,
    files.foldl (fun h f => h ++ rowHtml f) init
      = init ++ stringConcat (files.map rowHtml) := by
  induction files with
  | nil =>
    intro init
    apply string_eq_of_data
    simp [stringConcat, string_data_append]
  | cons e es ih =>
    intro init
    simp only [List.foldl_cons, List.map_cons, stringConcat]
    rw [ih, ← string_append_assoc]

theorem startsWithChars_append (p l1 l2 : List Char) (h : p.length ≤ l1.length) :
    startsWithChars p (l1 ++ l2) = startsWithChars p l1 := by
  induction p generalizing l1 with
  | nil => simp [startsWithChars]
  | cons x ps ih =>
    cases l1 with
    | nil => simp at h
    | cons c cs =>
      simp only [List.cons_append, startsWithChars, List.append_eq]
      rw [ih cs (by simpa using h)]

theorem collectLoop_append (branch : Option String) (xs ys : List String) :
    ∀ st, collectLoop branch st (xs ++ ys)
      = (collectLoop branch st xs).bind (fun st1 => collectLoop branch st1 ys) := by
  induction xs with
  | nil => intro st; simp [collectLoop]
  | cons l ls ih =>
    intro st
    simp only [List.cons_append, collectLoop]
    cases collectStep branch st l with
    | none => simp
    | some st1 => simpa using ih st1

theorem collectStep_header_eq (branch : Option String)
    (st : List ChangedFileEntry × Option CommitInfo) (line : String)
    (hc : pyContains line '|' = true) :
    collectStep branch st line = (parseHeader line).map (fun ci => (st.1, some ci)) := by
  simp [collectStep, hc]

theorem collectStep_header_inv (branch : Option String)
    (st st1 : List ChangedFileEntry × Option CommitInfo) (line : String)
    (hc : pyContains line '|' = true) (h : collectStep branch st line = some st1) :
    ∃ ci, parseHeader line = some ci ∧ st1 = (st.1, some ci) := by
  rw [collectStep_header_eq branch st line hc] at h
  cases hp : parseHeader line with
  | none => rw [hp] at h; simp at h
  | some ci =>
    rw [hp] at h
    refine ⟨ci, rfl, ?_⟩
    have h2 : some ((st.1, some ci) : List ChangedFileEntry × Option CommitInfo) = some st1 := h
    injection h2 with h2
    exact h2.symm

theorem collectStep_nonheader_snd (branch : Option String)
    (st st1 : List ChangedFileEntry × Option CommitInfo) (line : String)
    (hc : pyContains line '|' = false) (h : collectStep branch st line = some st1) :
    st1.2 = st.2 := by
  simp only [collectStep, hc, Bool.false_eq_true, if_false] at h
  split at h
  · injection h with h; rw [← h]
  · split at h
    · injection h with h; rw [← h]
    · injection h with h; rw [← h]

theorem collectStep_nonheader_fst (branch : Option String)
    (st st1 : List ChangedFileEntry × Option CommitInfo) (line : String)
    (hc : pyContains line '|' = false) (h : collectStep branch st line = some st1) :
    ∃ tail, st1.1 = st.1 ++ tail := by
  simp only [collectStep, hc, Bool.false_eq_true, if_false] at h
  split at h
  · injection h with h; exact ⟨[], by rw [← h]; simp⟩
  · split at h
    · injection h with h; exact ⟨_, by rw [← h]⟩
    · injection h with h; exact ⟨[], by rw [← h]; simp⟩

theorem collectStep_nonheader_some (branch : Option String)
    (st : List ChangedFileEntry × Option CommitInfo) (line : String)
    (hc : pyContains line '|' = false) :
    ∃ st1, collectStep branch st line = some st1 := by
  by_cases hs : pyStrip line = ""
  · exact ⟨st, by simp [collectStep, hc, hs]⟩
  · cases hst : st.2 with
    | none => exact ⟨st, by simp [collectStep, hc, hs, hst]⟩
    | some ci =>
      exact ⟨(st.1 ++ [⟨pyStrip line, ci.date, branchOrUnknown branch⟩], st.2),
        by simp [collectStep, hc, hs, hst]⟩

theorem collectStep_entries (branch : Option String)
    (st st1 : List ChangedFileEntry × Option CommitInfo) (line : String)
    (h : collectStep branch st line = some st1) :
    ∃ tail, st1.1 = st.1 ++ tail := by
  by_cases hc : pyContains line '|' = true
  · obtain ⟨ci, _, hst⟩ := collectStep_header_inv branch st st1 line hc h
    exact ⟨[], by rw [hst]; simp⟩
  · exact collectStep_nonheader_fst branch st st1 line (by simpa using hc) h

theorem collectLoop_entries_extend (branch : Option String) (ls : List String) :
    ∀ st es cur, collectLoop branch st ls = some (es, cur) → ∃ tail, es = st.1 ++ tail := by
  induction ls with
  | nil =>
    intro st es cur h
    simp only [collectLoop] at h
    injection h with h
    exact ⟨[], by rw [h]; simp⟩
  | cons l ls ih =>
    intro st es cur h
    simp only [collectLoop] at h
    cases hstep : collectStep branch st l with
    | none => rw [hstep] at h; cases h
    | some st1 =>
      rw [hstep] at h
      obtain ⟨t1, ht1⟩ := ih st1 es cur h
      obtain ⟨t0, ht0⟩ := collectStep_entries branch st st1 l hstep
      exact ⟨t0 ++ t1, by rw [ht1, ht0, List.append_assoc]⟩

theorem collectLoop_no_header (branch : Option String) (ls : List String)
    (h : ∀ x ∈ ls, pyContains x '|' = false) :
    ∀ es, collectLoop branch (es, none) ls = some (es, none) := by
  induction ls with
  | nil => intro es; rfl
  | cons l ls ih =>
    intro es
    have hl : pyContains l '|' = false := h l (by simp)
    have hrest : ∀ x ∈ ls, pyContains x '|' = false := fun x hx => h x (by simp [hx])
    have hstep : collectStep branch (es, none) l = some (es, none) := by
      by_cases hs : pyStrip l = "" <;> simp [collectStep, hl, hs]
    simp only [collectLoop, hstep]
    exact (ih hrest) es

theorem collectLoop_last_header (branch : Option String) (ls : List String) :
    ∀ st es cur, collectLoop branch st ls = some (es, cur) →
      (cur = st.2 ∧ ∀ x ∈ ls, pyContains x '|' = false) ∨
      (∃ p1 hl p2 ci, ls = p1 ++ hl :: p2 ∧ pyContains hl '|' = true ∧
        (∀ x ∈ p2, pyContains x '|' = false) ∧ parseHeader hl = some ci ∧ cur = some ci) := by
  induction ls with
  | nil =>
    intro st es cur h
    simp only [collectLoop] at h
    injection h with h
    left
    exact ⟨by rw [h], by simp⟩
  | cons l ls ih =>
    intro st es cur h
    simp only [collectLoop] at h
    cases hstep : collectStep branch st l with
    | none => rw [hstep] at h; cases h
    | some st1 =>
      rw [hstep] at h
      rcases ih st1 es cur h with ⟨hcur, hno⟩ | ⟨p1, hl, p2, ci, hdec, hh, hafter, hparse, hcur⟩
      · by_cases hc : pyContains l '|' = true
        · obtain ⟨ci, hp, hst1⟩ := collectStep_header_inv branch st st1 l hc hstep
          right
          exact ⟨[], l, ls, ci, rfl, hc, hno, hp, by rw [hcur, hst1]⟩
        · have hc2 : pyContains l '|' = false := by simpa using hc
          have h2 : st1.2 = st.2 := collectStep_nonheader_snd branch st st1 l hc2 hstep
          left
          refine ⟨by rw [hcur, h2], ?_⟩
          intro x hx
          rcases List.mem_cons.mp hx with rfl | hx2
          · exact hc2
          · exact hno x hx2
      · right
        exact ⟨l :: p1, hl, p2, ci, by simp [hdec], hh, hafter, hparse, hcur⟩

theorem splitOnChar_ne_nil (c : Char) (l : List Char) : splitOnChar c l ≠ [] := by
  cases l with
  | nil => simp [splitOnChar]
  | cons x xs =>
    simp only [splitOnChar]
    cases hsp : splitOnChar c xs with
    | nil => simp
    | cons g gs =>
      by_cases hx : (x == c) = true
      · simp [hx]
      · simp [hx]

theorem two_le_splitOnChar_length (c : Char) (l : List Char)
    (h : l.any (fun x => x == c) = true) : 2 ≤ (splitOnChar c l).length := by
  induction l with
  | nil => simp at h
  | cons x xs ih =>
    simp only [splitOnChar]
    cases hsp : splitOnChar c xs with
    | nil => exact absurd hsp (splitOnChar_ne_nil c xs)
    | cons g gs =>
      by_cases hx : (x == c) = true
      · simp only [hx, if_true]
        simp
      · have hx2 : (x == c) = false := by simpa using hx
        have hxs : xs.any (fun y => y == c) = true := by simpa [hx2] using h
        have h2 := ih hxs
        rw [hsp] at h2
        simp only [hx2, Bool.false_eq_true, if_false]
        simpa using h2

theorem two_le_pySplit_length (l : String) (h : pyContains l '|' = true) :
    2 ≤ (pySplit l '|').length := by
  unfold pySplit
  rw [List.length_map]
  exact two_le_splitOnChar_length '|' l.data h

theorem parseHeader_isSome_iff (l : String) :
    (parseHeader l).isSome = true ↔ 3 ≤ (pySplit l '|').length := by
  unfold parseHeader
  generalize pySplit l '|' = ps
  rcases ps with _ | ⟨p0, _ | ⟨p1, _ | ⟨p2, rest⟩⟩⟩ <;> simp

theorem parseHeader_some_of_three (l : String) (h : 3 ≤ (pySplit l '|').length) :
    ∃ ci, parseHeader l = some ci := by
  have h2 := (parseHeader_isSome_iff l).mpr h
  exact Option.isSome_iff_exists.mp h2

theorem collectLoop_isSome_iff (branch : Option String) (ls : List String) :
    ∀ st, (collectLoop branch st ls).isSome = true ↔
      ∀ l ∈ ls, pyContains l '|' = true → 3 ≤ (pySplit l '|').length := by
  induction ls with
  | nil => intro st; simp [collectLoop]
  | cons l ls ih =>
    intro st
    constructor
    · intro h x hx hc
      simp only [collectLoop] at h
      cases hstep : collectStep branch st l with
      | none => rw [hstep] at h; simp at h
      | some st1 =>
        rw [hstep] at h
        rcases List.mem_cons.mp hx with rfl | hx2
        · obtain ⟨ci, hp, _⟩ := collectStep_header_inv branch st st1 x hc hstep
          exact (parseHeader_isSome_iff x).mp (by rw [hp]; rfl)
        · exact (ih st1).mp h x hx2 hc
    · intro h
      have hstep : ∃ st1, collectStep branch st l = some st1 := by
        by_cases hc : pyContains l '|' = true
        · obtain ⟨ci, hp⟩ := parseHeader_some_of_three l (h l (by simp) hc)
          exact ⟨(st.1, some ci), by rw [collectStep_header_eq branch st l hc, hp]; rfl⟩
        · exact collectStep_nonheader_some branch st l (by simpa using hc)
      obtain ⟨st1, hstep⟩ := hstep
      simp only [collectLoop, hstep]
      exact (ih st1).mpr (fun x hx hc => h x (by simp [hx]) hc)

theorem run_collector_inv (env : Env) (t : RunTrace) (h : run env = some t)
    (hc : t.collectorRan = true) :
    ∃ b co, get_current_branch env.branchResult = some b ∧ pyTruthy b = true ∧
      get_files_changed_today b env.logResult = some co ∧
      t = ⟨b, true, co.entries, co.message, some (send_email co.entries env.smtp),
           (send_email co.entries env.smtp).success⟩ := by
  unfold run at h
  split at h
  · exact Option.noConfusion h
  next b hb =>
    split at h
    next ht =>
      injection h with h
      rw [← h] at hc
      simp at hc
    next ht =>
      split at h
      next hg => exact Option.noConfusion h
      next co hg =>
        injection h with h
        exact ⟨b, co, hb, by simpa using ht, hg, h.symm⟩

/-- C1: for the log output consisting of the header line
`abc123|Jane Doe|2024-01-01T10:00:00+00:00|fix bug` followed by the lines
`src/a.py` and `src/b.py`, the Change Collector yields exactly two entries,
in that order, with filenames `src/a.py` and `src/b.py`, both with date
`2024-01-01` (the first 10 characters of the timestamp field), and both
with branch equal to the resolved branch name. -/
theorem C1_collector_example (b : String) (hb : b ≠ "") :
    get_files_changed_today (some b)
      (.ok "abc123|Jane Doe|2024-01-01T10:00:00+00:00|fix bug\nsrc/a.py\nsrc/b.py")
      = some ⟨[⟨"src/a.py", "2024-01-01", b⟩, ⟨"src/b.py", "2024-01-01", b⟩],
          false, none⟩ := by
  have hbr : branchOrUnknown (some b) = b := by simp [branchOrUnknown, hb]
  have base : get_files_changed_today (some b)
      (.ok "abc123|Jane Doe|2024-01-01T10:00:00+00:00|fix bug\nsrc/a.py\nsrc/b.py")
      = some ⟨[⟨"src/a.py", "2024-01-01", branchOrUnknown (some b)⟩,
              ⟨"src/b.py", "2024-01-01", branchOrUnknown (some b)⟩], false, none⟩ := rfl
  rw [base, hbr]

theorem C1_collector_example_witness :
    get_files_changed_today (some "main")
      (.ok "abc123|Jane Doe|2024-01-01T10:00:00+00:00|fix bug\nsrc/a.py\nsrc/b.py")
      = some ⟨[⟨"src/a.py", "2024-01-01", "main"⟩, ⟨"src/b.py", "2024-01-01", "main"⟩],
          false, none⟩ :=
  C1_collector_example "main" (by decide)

/-- C3: if the collected entry sequence is empty, `send_email` skips
transmission entirely (no SMTP session is opened), prints the
nothing-to-report notice, and returns a non-success result; consequently
the run returns failure and the process exits with status 1. -/
theorem C3_empty_guard :
    (∀ smtp, send_email [] smtp = ⟨false, false, .skippedEmpty⟩) ∧
    (∀ r, sendMessage r .skippedEmpty = "No files changed today. Email not sent.") ∧
    (∀ env t, run env = some t → t.collectorRan = true → t.entries = [] →
      t.sendResult = some ⟨false, false, .skippedEmpty⟩ ∧ t.success = false ∧
      main_exit_code env = some 1) := by
  refine ⟨fun smtp => rfl, fun r => rfl, fun env t h hc he => ?_⟩
  obtain ⟨b, co, hb, ht, hg, hteq⟩ := run_collector_inv env t h hc
  have hce : co.entries = [] := by rw [hteq] at he; exact he
  have hse : send_email co.entries env.smtp = ⟨false, false, .skippedEmpty⟩ := by
    rw [hce]; rfl
  have hsucc : t.success = false := by rw [hteq]; simp [hse]
  refine ⟨by rw [hteq]; simp [hse], hsucc, ?_⟩
  unfold main_exit_code
  rw [h]
  simp [hsucc]

theorem C3_empty_guard_witness :
    (⟨some "main", true, [], some "No commits found for today",
        some ⟨false, false, .skippedEmpty⟩, false⟩ : RunTrace).sendResult
        = some ⟨false, false, .skippedEmpty⟩ ∧
    (⟨some "main", true, [], some "No commits found for today",
        some ⟨false, false, .skippedEmpty⟩, false⟩ : RunTrace).success = false ∧
    main_exit_code ⟨.ok "main", .ok "", .ok⟩ = some 1 :=
  C3_empty_guard.2.2 ⟨.ok "main", .ok "", .ok⟩
    ⟨some "main", true, [], some "No commits found for today",
      some ⟨false, false, .skippedEmpty⟩, false⟩ (by decide) (by decide) (by decide)

/-- C4: rendering an empty entry sequence produces exactly the
no-files-changed notice, which contains no table row; rendering a
non-empty sequence produces the fixed document head (holding exactly one
header row) followed by one data row per entry, in input order with no
sorting and no deduplication, followed by the closing fragment that shows
the report generation timestamp. -/
theorem C4_rendering :
    (∀ now, create_html_table [] now = "<p>No files changed today.</p>") ∧
    countSubstr "<tr".data "<p>No files changed today.</p>".data = 0 ∧
    countSubstr "<tr".data htmlDocHead.data = 1 ∧
    (∀ e es now,
      create_html_table (e :: es) now
        = htmlDocHead ++ stringConcat ((e :: es).map rowHtml)
            ++ (htmlFootPre ++ now ++ htmlFootSuf) ∧
      ((e :: es).map rowHtml).length = (e :: es).length) := by
  refine ⟨fun now => rfl, by decide, by decide, fun e es now => ⟨?_, by simp⟩⟩
  unfold create_html_table
  rw [if_neg (by simp : ¬((e :: es).isEmpty = true))]
  rw [foldl_rows]

/-- C5 (amended): when the branch query fails with a non-zero exit
(`CalledProcessError`, e.g. not inside a repository), `get_current_branch`
returns the failure value `None`, the run stops before the Change
Collector and the process exits with status 1; when the VCS binary is
unavailable the exception is not caught, so the resolver raises instead of
returning a failure signal, and the run still stops before the Collector
with a non-zero process exit status. -/
theorem C5_branch_failure :
    (∀ env d, env.branchResult = .calledProcessError d →
      run env = some ⟨none, false, [], none, none, false⟩ ∧
      main_exit_code env = some 1) ∧
    (∀ env, env.branchResult = .osError →
      run env = none ∧ process_exit_code env = 1) := by
  constructor
  · intro env d h
    have hr : run env = some ⟨none, false, [], none, none, false⟩ := by
      unfold run; rw [h]; rfl
    exact ⟨hr, by unfold main_exit_code; rw [hr]; rfl⟩
  · intro env h
    have hr : run env = none := by unfold run; rw [h]; rfl
    exact ⟨hr, by unfold process_exit_code main_exit_code; rw [hr]; rfl⟩

theorem C5_branch_failure_witness :
    (run ⟨.calledProcessError "fatal: not a git repository", .ok "", .ok⟩
        = some ⟨none, false, [], none, none, false⟩ ∧
      main_exit_code ⟨.calledProcessError "fatal: not a git repository", .ok "", .ok⟩
        = some 1) ∧
    (run ⟨.osError, .ok "", .ok⟩ = none ∧
      process_exit_code ⟨.osError, .ok "", .ok⟩ = 1) :=
  ⟨C5_branch_failure.1 ⟨.calledProcessError "fatal: not a git repository", .ok "", .ok⟩
      "fatal: not a git repository" rfl,
   C5_branch_failure.2 ⟨.osError, .ok "", .ok⟩ rfl⟩

/-- C5 counterexample: when the VCS binary is unavailable the branch query
raises an error that is not a `CalledProcessError`, and `get_current_branch`
does not return a failure signal: no value is returned at all (the
exception escapes), contradicting the claim that an erroring query makes
the resolver return a failure signal. -/
theorem C5_counterexample :
    get_current_branch BranchQueryResult.osError = none ∧
    ¬ ∃ v, get_current_branch BranchQueryResult.osError = some v := by
  refine ⟨rfl, ?_⟩
  rintro ⟨v, hv⟩
  exact Option.noConfusion hv

/-- C6: a log query with no output yields an empty sequence without taking
the error path (only the no-commits notice is printed), and a log query
whose execution errors is caught, yields an empty sequence, and prints the
error detail to the console. -/
theorem C6_collector_errors :
    (∀ branch out, pyStrip out = "" →
      get_files_changed_today branch (.ok out)
        = some ⟨[], false, some "No commits found for today"⟩) ∧
    (∀ branch d, get_files_changed_today branch (.calledProcessError d)
      = some ⟨[], true, some ("Error getting changed files: " ++ d)⟩) := by
  constructor
  · intro branch out h
    simp only [get_files_changed_today]
    rw [if_pos h]
  · intro branch d
    rfl

theorem C6_collector_errors_witness :
    get_files_changed_today (some "main") (.ok "  \n")
      = some ⟨[], false, some "No commits found for today"⟩ :=
  C6_collector_errors.1 (some "main") "  \n" (by decide)

/-- C8 (code bug evidence): the issued query passes bare `YYYY-MM-DD`
values for both `--since` and `--until`; under the git interpretation of a
bare date (`gitApproxidate`: missing time of day defaults to the current
time of day) the window both bounds denote is `[now, now]`, so a commit
made at minute 300 of the current day, with the agent run at minute 600,
lies inside the specified range `[today 00:00, now]` but outside the range
the issued query denotes. -/
theorem C8_log_query_bounds :
    gitLogArgs "2026-10-12"
      = ["git", "log", "--all", "--since=2026-10-12", "--until=2026-10-12",
         "--name-only", "--pretty=format:%h|%an|%ai|%s"] ∧
    commitInSpecRange 0 ⟨0, 600⟩ ⟨0, 300⟩ = true ∧
    commitInGitQuery 0 ⟨0, 600⟩ ⟨0, 300⟩ = false :=
  ⟨by decide, by decide, by decide⟩

/-- C7: an authentication failure is reported distinctly (by both exit
path and console message) from a generic transmission failure; both are
non-fatal (`send_email` returns `False` instead of raising), and whenever
`send_email` reports failure the run reports overall failure and the
process exits with status 1. -/
theorem C7_failure_signals :
    (∀ es : List ChangedFileEntry, es ≠ [] →
      send_email es .authError = ⟨false, true, .authFailed⟩) ∧
    (∀ es : List ChangedFileEntry, ∀ d, es ≠ [] →
      send_email es (.otherError d) = ⟨false, true, .otherFailed d⟩) ∧
    (∀ r d, sendMessage r .authFailed ≠ sendMessage r (.otherFailed d)) ∧
    (∀ env t sr, run env = some t → t.sendResult = some sr → sr.success = false →
      t.success = false ∧ main_exit_code env = some 1) := by
  have hempty : ∀ es : List ChangedFileEntry, es ≠ [] → es.isEmpty = false := by
    intro es h
    cases es with
    | nil => exact absurd rfl h
    | cons e es => rfl
  refine ⟨?_, ?_, ?_, ?_⟩
  · intro es h
    unfold send_email
    rw [hempty es h]
    rfl
  · intro es d h
    unfold send_email
    rw [hempty es h]
    rfl
  · intro r d h
    simp only [sendMessage] at h
    have h1 : startsWithChars "✗ Error: ".data
        ("✗ Error: Gmail authentication failed.").data = true := by decide
    rw [h] at h1
    rw [string_data_append] at h1
    rw [startsWithChars_append "✗ Error: ".data "✗ Error sending email: ".data d.data
      (by decide)] at h1
    exact absurd h1 (by decide)
  · intro env t sr h hs hf
    have hrun := h
    unfold run at h
    split at h
    · exact Option.noConfusion h
    next b hb =>
      split at h
      next ht =>
        injection h with h
        rw [← h] at hs
        exact Option.noConfusion hs
      next ht =>
        split at h
        next hg => exact Option.noConfusion h
        next co hg =>
          injection h with h
          have hsr : some (send_email co.entries env.smtp) = some sr := by
            rw [← h] at hs
            exact hs
          injection hsr with hsr
          have hsucc : t.success = false := by
            rw [← h]
            show (send_email co.entries env.smtp).success = false
            rw [hsr]
            exact hf
          exact ⟨hsucc, by unfold main_exit_code; rw [hrun]; simp [hsucc]⟩

theorem C7_failure_signals_witness :
    send_email [⟨"f.py", "2024-01-01", "main"⟩] .authError = ⟨false, true, .authFailed⟩ ∧
    send_email [⟨"f.py", "2024-01-01", "main"⟩] (.otherError "boom")
      = ⟨false, true, .otherFailed "boom"⟩ ∧
    sendMessage "swarooj@gmail.com" .authFailed
      ≠ sendMessage "swarooj@gmail.com" (.otherFailed "boom") ∧
    ((⟨some "main", true, [⟨"f.py", "2024-01-01", "main"⟩], none,
        some ⟨false, true, .authFailed⟩, false⟩ : RunTrace).success = false ∧
      main_exit_code ⟨.ok "main", .ok "h|a|2024-01-01 10:00:00 +0000|s\nf.py", .authError⟩
        = some 1) :=
  ⟨C7_failure_signals.1 [⟨"f.py", "2024-01-01", "main"⟩] (by decide),
   C7_failure_signals.2.1 [⟨"f.py", "2024-01-01", "main"⟩] "boom" (by decide),
   C7_failure_signals.2.2.1 "swarooj@gmail.com" "boom",
   C7_failure_signals.2.2.2
     ⟨.ok "main", .ok "h|a|2024-01-01 10:00:00 +0000|s\nf.py", .authError⟩
     ⟨some "main", true, [⟨"f.py", "2024-01-01", "main"⟩], none,
       some ⟨false, true, .authFailed⟩, false⟩
     ⟨false, true, .authFailed⟩ (by decide) (by decide) (by decide)⟩

/-- C2: every produced entry is stamped with the date of the commit header
that most recently preceded its file-path line in traversal order: for any
decomposition of the input into `pre ++ l :: post` with `l` a non-blank
non-header line, either `pre` contains no header at all and `l` is dropped
(the collection is the same as if the run had started directly after `l`),
or the last header of `pre` parses to some `ci` and the entry produced
from `l` carries exactly `ci.date`, placed right after the entries of
`pre`. -/
theorem C2_date_invariant (branch : Option String) (pre : List String) (l : String)
    (post : List String) (es : List ChangedFileEntry) (cur : Option CommitInfo)
    (hl : pyContains l '|' = false) (hs : pyStrip l ≠ "")
    (hrun : collectLines branch (pre ++ l :: post) = some (es, cur)) :
    ((∀ x ∈ pre, pyContains x '|' = false) ∧
      collectLines branch (pre ++ l :: post) = collectLines branch post) ∨
    (∃ p1 hd p2 ci es1 rest, pre = p1 ++ hd :: p2 ∧ pyContains hd '|' = true ∧
      (∀ x ∈ p2, pyContains x '|' = false) ∧ parseHeader hd = some ci ∧
      collectLines branch pre = some (es1, some ci) ∧
      es = es1 ++ ⟨pyStrip l, ci.date, branchOrUnknown branch⟩ :: rest) := by
  unfold collectLines at hrun ⊢
  rw [collectLoop_append] at hrun
  cases hpre : collectLoop branch ([], none) pre with
  | none => rw [hpre] at hrun; exact Option.noConfusion hrun
  | some st1 =>
    rw [hpre] at hrun
    obtain ⟨es1, cur1⟩ := st1
    have hrun2 : collectLoop branch (es1, cur1) (l :: post) = some (es, cur) := hrun
    rcases collectLoop_last_header branch pre ([], none) es1 cur1 hpre with
      ⟨hcur, hnh⟩ | ⟨p1, hd, p2, ci, hdec, hh, hafter, hparse, hcur⟩
    · left
      refine ⟨hnh, ?_⟩
      have hconst : collectLoop branch ([], none) pre = some ([], none) :=
        collectLoop_no_header branch pre hnh []
      rw [collectLoop_append, hconst]
      show collectLoop branch ([], none) (l :: post) = collectLoop branch ([], none) post
      have hstep : collectStep branch ([], none) l = some ([], none) := by
        simp [collectStep, hl, hs]
      simp only [collectLoop, hstep]
    · right
      have hcur1 : cur1 = some ci := hcur
      have hstep : collectStep branch (es1, cur1) l
          = some (es1 ++ [⟨pyStrip l, ci.date, branchOrUnknown branch⟩], cur1) := by
        rw [hcur1]
        simp [collectStep, hl, hs]
      simp only [collectLoop, hstep] at hrun2
      obtain ⟨tail, htail⟩ :=
        collectLoop_entries_extend branch post
          (es1 ++ [⟨pyStrip l, ci.date, branchOrUnknown branch⟩], cur1) es cur hrun2
      have htail2 : es = (es1 ++ [⟨pyStrip l, ci.date, branchOrUnknown branch⟩]) ++ tail :=
        htail
      refine ⟨p1, hd, p2, ci, es1, tail, hdec, hh, hafter, hparse, ?_, ?_⟩
      · rw [hcur1]
      · rw [htail2, List.append_assoc, List.singleton_append]

theorem C2_date_invariant_witness :
    ((∀ x ∈ ["h|a|2024-01-02T00:00:00+00:00|s"], pyContains x '|' = false) ∧
      collectLines (some "main") (["h|a|2024-01-02T00:00:00+00:00|s"] ++ "f.py" :: [])
        = collectLines (some "main") []) ∨
    (∃ p1 hd p2 ci es1 rest,
      ["h|a|2024-01-02T00:00:00+00:00|s"] = p1 ++ hd :: p2 ∧
      pyContains hd '|' = true ∧ (∀ x ∈ p2, pyContains x '|' = false) ∧
      parseHeader hd = some ci ∧
      collectLines (some "main") ["h|a|2024-01-02T00:00:00+00:00|s"]
        = some (es1, some ci) ∧
      [(⟨"f.py", "2024-01-02", "main"⟩ : ChangedFileEntry)]
        = es1 ++ (⟨"f.py", ci.date, "main"⟩ : ChangedFileEntry) :: rest) :=
  C2_date_invariant (some "main") ["h|a|2024-01-02T00:00:00+00:00|s"] "f.py" []
    [⟨"f.py", "2024-01-02", "main"⟩] (some ⟨"h", "a", "2024-01-02"⟩)
    (by decide) (by decide) (by decide)

/-- C9 (amended): the collector parse is total exactly when every
pipe-containing line splits into at least three fields; a pipe-containing
line always splits into at least two fields, so with fewer than three
fields only the third access is out of range. -/
theorem C9_header_parse_totality :
    (∀ branch lines, (collectLines branch lines).isSome = true ↔
      ∀ l ∈ lines, pyContains l '|' = true → 3 ≤ (pySplit l '|').length) ∧
    (∀ l, pyContains l '|' = true → 2 ≤ (pySplit l '|').length) :=
  ⟨fun branch lines => collectLoop_isSome_iff branch lines ([], none),
   two_le_pySplit_length⟩

theorem C9_header_parse_totality_witness :
    (collectLines (some "main") ["h|a|2024-01-01|s", "f.py"]).isSome = true ∧
    2 ≤ (pySplit "a|b" '|').length :=
  ⟨(C9_header_parse_totality.1 (some "main") ["h|a|2024-01-01|s", "f.py"]).mpr (by decide),
   C9_header_parse_totality.2 "a|b" (by decide)⟩

/-- C9 counterexample: the line `a|b` contains a pipe and splits into only
two fields; the parse of it does raise (the collection is undefined), but
the access of field index 1 is in range (`parts[1]` is `b`): only the
index 2 access is out of range, contradicting the claim that both
`parts[1]` and `parts[2]` are out of range. -/
theorem C9_counterexample :
    pyContains "a|b" '|' = true ∧ (pySplit "a|b" '|').length < 3 ∧
    (pySplit "a|b" '|')[1]? = some "b" ∧ (pySplit "a|b" '|')[2]? = none ∧
    collectLines (some "main") ["a|b"] = none := by decide

/-- C10: a header line is consumed only through its first three fields
(hash, author, date truncated to 10 characters); two header lines that
agree on their first three fields produce the same parse and leave the
collection of any surrounding input unchanged, whatever extra fields
follow. -/
theorem C10_extra_fields (branch : Option String) (l1 l2 : String)
    (p0 p1 p2 : String) (r1 r2 : List String)
    (hc1 : pyContains l1 '|' = true) (hc2 : pyContains l2 '|' = true)
    (h1 : pySplit l1 '|' = p0 :: p1 :: p2 :: r1)
    (h2 : pySplit l2 '|' = p0 :: p1 :: p2 :: r2) :
    parseHeader l1 = some ⟨p0, p1, pyTakeTen p2⟩ ∧
    (∀ pre post, collectLines branch (pre ++ l1 :: post)
      = collectLines branch (pre ++ l2 :: post)) := by
  have hp1 : parseHeader l1 = some ⟨p0, p1, pyTakeTen p2⟩ := by
    unfold parseHeader
    rw [h1]
  have hp2 : parseHeader l2 = some ⟨p0, p1, pyTakeTen p2⟩ := by
    unfold parseHeader
    rw [h2]
  refine ⟨hp1, fun pre post => ?_⟩
  unfold collectLines
  rw [collectLoop_append, collectLoop_append]
  cases hpre : collectLoop branch ([], none) pre with
  | none => rfl
  | some st =>
    show collectLoop branch st (l1 :: post) = collectLoop branch st (l2 :: post)
    have hstep : collectStep branch st l1 = collectStep branch st l2 := by
      rw [collectStep_header_eq branch st l1 hc1, collectStep_header_eq branch st l2 hc2,
        hp1, hp2]
    simp only [collectLoop, hstep]

theorem C10_extra_fields_witness :
    parseHeader "h|an author|2024-01-01 10:00:00 +0000|subject|extra|more"
      = some ⟨"h", "an author", "2024-01-01"⟩ ∧
    collectLines (some "main")
        ([] ++ "h|an author|2024-01-01 10:00:00 +0000|subject|extra|more" :: ["f.py"])
      = collectLines (some "main")
        ([] ++ "h|an author|2024-01-01 10:00:00 +0000|subject" :: ["f.py"]) :=
  ⟨(C10_extra_fields (some "main")
      "h|an author|2024-01-01 10:00:00 +0000|subject|extra|more"
      "h|an author|2024-01-01 10:00:00 +0000|subject"
      "h" "an author" "2024-01-01 10:00:00 +0000" ["subject", "extra", "more"] ["subject"]
      (by decide) (by decide) (by decide) (by decide)).1,
   (C10_extra_fields (some "main")
      "h|an author|2024-01-01 10:00:00 +0000|subject|extra|more"
      "h|an author|2024-01-01 10:00:00 +0000|subject"
      "h" "an author" "2024-01-01 10:00:00 +0000" ["subject", "extra", "more"] ["subject"]
      (by decide) (by decide) (by decide) (by decide)).2 [] ["f.py"]⟩
